import Mathlib

/-!
Shallow embedding of `src/textSummarizer/components/data_ingestion.py`
(class `DataIngestion`) and proofs about its specified behaviour.

The module is a sequence of synchronous filesystem / network operations.
We model the filesystem as an association list from paths to byte lists
(bytes as `Nat`), plus a set of created directories.  The network transfer
(`urlretrieve`) and the ZIP library (`zipfile`) are external collaborators
and are passed in as explicit parameters (`Net`, `ZipLib`).  Python
exceptions are modelled by the inductive `PyExc`; `raise` is propagation of
an `Except.error` value, and every operation additionally returns the list
of log messages it emitted in order.
-/

set_option autoImplicit false

namespace DataIngestion

/-- Bytes of a file, modelled as natural numbers (one per byte). -/
abbrev Bytes := List Nat

/-- Filesystem state: files as an association list from path to contents,
plus the set of directories that exist. -/
structure FS where
  files : List (String × Bytes)
  dirs : List String
deriving Repr, DecidableEq

/-- Lookup in an association list of files (first match wins). -/
def assocLookup : List (String × Bytes) → String → Option Bytes
  | [], _ => none
  | (q, v) :: rest, p => if q = p then some v else assocLookup rest p

/-- Remove every entry for a path from an association list of files. -/
def removeAssoc : List (String × Bytes) → String → List (String × Bytes)
  | [], _ => []
  | (q, v) :: rest, p =>
    if q = p then removeAssoc rest p else (q, v) :: removeAssoc rest p

/-- Contents of the file at `p`, when it exists (model of reading a file). -/
def lookupF (fs : FS) (p : String) : Option Bytes :=
  assocLookup fs.files p

/-- Model of `os.path.exists` for a data file. -/
def existsF (fs : FS) (p : String) : Bool :=
  (lookupF fs p).isSome

/-- Model of `os.path.getsize`: length in bytes (0 when absent). -/
def getsizeF (fs : FS) (p : String) : Nat :=
  ((lookupF fs p).getD []).length

/-- Model of `os.remove`. -/
def removeF (fs : FS) (p : String) : FS :=
  { fs with files := removeAssoc fs.files p }

/-- Model of writing the full contents of a file (as `urlretrieve` or
`ZipFile.extractall` do). -/
def writeF (fs : FS) (p : String) (bs : Bytes) : FS :=
  { fs with files := (p, bs) :: removeAssoc fs.files p }

/-- Model of `os.makedirs(d, exist_ok=True)`: the target directory exists
afterwards (intermediate directories are immaterial to the claims). -/
def makedirs (fs : FS) (d : String) : FS :=
  if d ∈ fs.dirs then fs else { fs with dirs := d :: fs.dirs }

/-- Model of `os.path.dirname` (POSIX paths, modulo the root edge case):
everything before the last path separator. -/
def dirname (p : String) : String :=
  String.mk ((((p.data.reverse).dropWhile (fun c => c != '/')).drop 1).reverse)

/-- ASCII bytes of a string (used for the byte-signature constants such as
the Python byte literals starting with the letter b). -/
def asciiBytes (s : String) : Bytes :=
  s.data.map Char.toNat

/-- Lowercase hex digit for a value below 16 (model of `bytes.hex()`). -/
def hexDigit (n : Nat) : Char :=
  if n < 10 then Char.ofNat (48 + n) else Char.ofNat (87 + n)

/-- Two lowercase hex digits of one byte. -/
def hexByte (b : Nat) : String :=
  String.mk [hexDigit ((b / 16) % 16), hexDigit (b % 16)]

/-- Model of Python `bytes.hex()`: two lowercase hex digits per byte. -/
def hexOfBytes (bs : Bytes) : String :=
  String.join (bs.map hexByte)

/-- Model of decoding bytes as text with `errors='ignore'`, restricted to
the ASCII plane: non-ASCII bytes are dropped.  Only used for a diagnostic
log line. -/
def decodeAsciiIgnore (bs : Bytes) : String :=
  String.mk (bs.filterMap (fun b => if b < 128 then some (Char.ofNat b) else none))

/-- First `n` characters of a string (model of `f.read(n)` in text mode). -/
def takeStr (n : Nat) (s : String) : String :=
  String.mk (s.data.take n)

/-- Python exceptions that can flow through this module, carrying their
`str(e)` message. -/
inductive PyExc where
  | fileNotFound (msg : String)
  | valueError (msg : String)
  | badZipFile (msg : String)
  | urlError (msg : String)
  | otherError (msg : String)
deriving Repr, DecidableEq

/-- The message of an exception (Python `str(e)`). -/
def PyExc.msg : PyExc → String
  | .fileNotFound m => m
  | .valueError m => m
  | .badZipFile m => m
  | .urlError m => m
  | .otherError m => m

/-- Whether an exception is caught by `except (ValueError, zipfile.BadZipFile)`. -/
def isValueOrBadZip : PyExc → Bool
  | .valueError _ => true
  | .badZipFile _ => true
  | _ => false

/-- Whether an exception is caught by `except zipfile.BadZipFile`. -/
def isBadZip : PyExc → Bool
  | .badZipFile _ => true
  | _ => false

/-- Abstract model of the `zipfile` library: `parse` is reading the central
directory (`ZipFile(...)` + `namelist()`), returning the entry names or the
`BadZipFile` message; `entryData` gives the contents of a named entry, used
by `extractall`. -/
structure ZipLib where
  parse : Bytes → Except String (List String)
  entryData : Bytes → String → Bytes

/-- Abstract model of `urllib.request.urlretrieve`: a URL yields either the
response body plus headers, or a raised transfer failure. -/
abbrev Net := String → Except PyExc (Bytes × String)

/-- The three-field configuration entity (`DataIngestionConfig`). -/
structure DataIngestionConfig where
  source_URL : String
  local_data_file : String
  unzip_dir : String

/-- Fuel-indexed model of Python `str.replace` on character lists: replaces
all non-overlapping occurrences left to right.  Fuel at least the length of
the subject list suffices, since every step consumes at least one character. -/
def replaceAux : Nat → List Char → List Char → List Char → List Char
  | 0, l, _, _ => l
  | Nat.succ n, l, pat, rep =>
    match l with
    | [] => []
    | c :: rest =>
      if pat ≠ [] ∧ pat.isPrefixOf l then
        rep ++ replaceAux n (l.drop pat.length) pat rep
      else
        c :: replaceAux n rest pat rep

/-- Model of Python `str.replace(pat, rep)` (replace all occurrences). -/
def replaceStr (s pat rep : String) : String :=
  String.mk (replaceAux s.data.length s.data pat.data rep.data)

/-- Occurrence check of a pattern inside a character list, scanning left to
right (helper for `containsSub`). -/
def containsList : List Char → List Char → Bool
  | l, pat =>
    if pat.isPrefixOf l then true
    else
      match l with
      | [] => false
      | _ :: rest => containsList rest pat

/-- Model of Python `pat in s` (substring containment). -/
def containsSub (s pat : String) : Bool :=
  containsList s.data pat.data

/-- Embedding of `DataIngestion._fix_github_url`: returns the (possibly
rewritten) URL together with the log lines emitted. -/
def fix_github_url (url : String) : String × List String :=
  if containsSub url "github.com" && containsSub url "/blob/" then
    let fixed1 := replaceStr url "github.com" "raw.githubusercontent.com"
    let fixed_url := replaceStr fixed1 "/blob/" "/"
    (fixed_url, ["Fixed GitHub URL: " ++ url ++ " -> " ++ fixed_url])
  else
    (url, [])

/-- Embedding of `DataIngestion._validate_zip_file`: returns the Python
result (`True`, or the raised exception) together with the log lines
emitted before returning or raising. -/
def validate_zip_file (zip : ZipLib) (fs : FS) (file_path : String) :
    Except PyExc Bool × List String :=
  match lookupF fs file_path with
  | none => (.error (.fileNotFound ("File not found: " ++ file_path)), [])
  | some bs =>
    let file_size := bs.length
    if file_size = 0 then
      (.error (.valueError "Downloaded file is empty"), [])
    else
      let first_bytes := bs.take 100
      if (asciiBytes "<!DOCTYPE").isPrefixOf first_bytes
          || (asciiBytes "<html").isPrefixOf first_bytes then
        let html_content := takeStr 300 (decodeAsciiIgnore bs)
        (.error (.valueError "Downloaded HTML page instead of ZIP file. Check the URL."),
         ["Downloaded HTML page instead of ZIP file",
          "HTML content: " ++ html_content])
      else if !((asciiBytes "PK").isPrefixOf first_bytes) then
        (.error (.valueError
            ("File is not a ZIP file. First bytes: " ++ hexOfBytes (first_bytes.take 20))), [])
      else
        match zip.parse bs with
        | .ok file_list =>
          (.ok true, ["ZIP file is valid with " ++ toString file_list.length ++ " files"])
        | .error e =>
          (.error (.badZipFile ("Corrupted ZIP file: " ++ e)), [])

/-- Modelled from the spec: the file-size utility collaborator `get_size`
(from `textSummarizer.utils.common`, which is not under `src/`) returns a
human-readable size string for a path; modelled as the byte count rendered
as approximate kilobytes.  It feeds a single informational log line. -/
def get_size (fs : FS) (p : String) : String :=
  "~ " ++ toString (getsizeF fs p / 1024) ++ " KB"

/-- Result of one `download_file` call: the final filesystem, the Python
outcome (normal return or propagated exception), the log lines emitted, and
the list of URLs actually requested over the network (one per
`urlretrieve` call, in order). -/
structure DLRes where
  fs : FS
  result : Except PyExc Unit
  logs : List String
  reqs : List String
deriving Repr

/-- The branch of `download_file` taken when the destination file does not
exist: create the parent directory, normalize the URL, download, log, and
validate; any raised failure falls to the cleanup handler (`except
Exception`), which deletes the destination file when present and re-raises. -/
def freshBody (zip : ZipLib) (net : Net) (cfg : DataIngestionConfig) (fs : FS) :
    FS × Except PyExc Unit × List String :=
  let fs1 := makedirs fs (dirname cfg.local_data_file)
  let fixres := fix_github_url cfg.source_URL
  let download_url := fixres.1
  let logs0 := fixres.2 ++ ["Downloading from: " ++ download_url]
  match net download_url with
  | .error e =>
    if existsF fs1 cfg.local_data_file then
      (removeF fs1 cfg.local_data_file, .error e,
       logs0 ++ ["Removed failed download", "Download failed: " ++ e.msg])
    else
      (fs1, .error e, logs0 ++ ["Download failed: " ++ e.msg])
  | .ok (body, headers) =>
    let fs2 := writeF fs1 cfg.local_data_file body
    let logs1 := logs0 ++ [cfg.local_data_file ++ " downloaded! Headers: \n" ++ headers]
    match validate_zip_file zip fs2 cfg.local_data_file with
    | (.ok _, vlogs) =>
      (fs2, .ok (), logs1 ++ vlogs ++ ["File validated successfully as ZIP"])
    | (.error e, vlogs) =>
      (removeF fs2 cfg.local_data_file, .error e,
       logs1 ++ vlogs ++ ["Removed failed download", "Download failed: " ++ e.msg])

/-- The fresh-download branch as a `DLRes`: exactly one network request is
made (to the normalized URL), whatever its outcome. -/
def freshDownload (zip : ZipLib) (net : Net) (cfg : DataIngestionConfig) (fs : FS) : DLRes :=
  ⟨(freshBody zip net cfg fs).1, (freshBody zip net cfg fs).2.1,
   (freshBody zip net cfg fs).2.2, [(fix_github_url cfg.source_URL).1]⟩

/-- Embedding of `DataIngestion.download_file`.  The Python method calls
itself recursively after deleting an invalid pre-existing file; the model
indexes the recursion by fuel (the recursion is shown to be insensitive to
any fuel of at least 2, since after the deletion the destination file is
absent and the fresh-download branch does not recurse).  Exceptions raised
out of the recursive call, or out of the fresh-download branch, hit the
outer `except Exception` handler, which deletes the destination file when
present, logs, and re-raises the original exception. -/
def download_file (zip : ZipLib) (net : Net) (cfg : DataIngestionConfig) :
    FS → Nat → DLRes
  | fs, 0 => ⟨fs, .error (.otherError "recursion limit"), [], []⟩
  | fs, fuel+1 =>
    if existsF fs cfg.local_data_file = false then
      freshDownload zip net cfg fs
    else
      let file_size := get_size fs cfg.local_data_file
      let logs0 := ["File already exists of size: " ++ file_size]
      match validate_zip_file zip fs cfg.local_data_file with
      | (.ok _, vlogs) => ⟨fs, .ok (), logs0 ++ vlogs, []⟩
      | (.error e, vlogs) =>
        if isValueOrBadZip e then
          let logs1 := logs0 ++ vlogs ++
            ["Existing file is invalid: " ++ e.msg,
             "Removing invalid file and re-downloading..."]
          let r := download_file zip net cfg (removeF fs cfg.local_data_file) fuel
          match r.result with
          | .ok _ => ⟨r.fs, .ok (), logs1 ++ r.logs, r.reqs⟩
          | .error e2 =>
            if existsF r.fs cfg.local_data_file then
              ⟨removeF r.fs cfg.local_data_file, .error e2,
               logs1 ++ r.logs ++ ["Removed failed download", "Download failed: " ++ e2.msg],
               r.reqs⟩
            else
              ⟨r.fs, .error e2, logs1 ++ r.logs ++ ["Download failed: " ++ e2.msg], r.reqs⟩
        else
          if existsF fs cfg.local_data_file then
            ⟨removeF fs cfg.local_data_file, .error e,
             logs0 ++ vlogs ++ ["Removed failed download", "Download failed: " ++ e.msg], []⟩
          else
            ⟨fs, .error e, logs0 ++ vlogs ++ ["Download failed: " ++ e.msg], []⟩

/-- Sample-file log lines of `extract_zip_file`: the enumerated (1-indexed)
entry names, as produced by the `for i, filename in enumerate(...)` loop. -/
def enumLines : Nat → List String → List String
  | _, [] => []
  | i, n :: rest => ("  " ++ toString (i + 1) ++ ". " ++ n) :: enumLines (i + 1) rest

/-- Writing of all archive entries into the target directory (model of
`ZipFile.extractall`): each entry name is joined to the directory with a
path separator and written with its archive contents. -/
def extractAll (zip : ZipLib) (bs : Bytes) (dir : String) : List String → FS → FS
  | [], fs => fs
  | n :: rest, fs => extractAll zip bs dir rest (writeF fs (dir ++ "/" ++ n) (zip.entryData bs n))

/-- Embedding of `DataIngestion.extract_zip_file`: validation, directory
creation, extraction and sample logging; `BadZipFile` failures get the
contextual-hints log block, any other failure the generic log line, and the
original exception is re-raised either way. -/
def extract_zip_file (zip : ZipLib) (cfg : DataIngestionConfig) (fs : FS) :
    FS × Except PyExc Unit × List String :=
  match validate_zip_file zip fs cfg.local_data_file with
  | (.error e, vlogs) =>
    if isBadZip e then
      (fs, .error e,
       vlogs ++ ["ZIP file error: " ++ e.msg, "Possible causes:",
         "1. Downloaded file is corrupted",
         "2. Wrong URL (downloaded HTML instead of ZIP)",
         "3. File is not actually a ZIP file"])
    else
      (fs, .error e, vlogs ++ ["Extraction failed: " ++ e.msg])
  | (.ok _, vlogs) =>
    let unzip_path := cfg.unzip_dir
    let fs1 := makedirs fs unzip_path
    let logs1 := vlogs ++ ["Extracting ZIP file to: " ++ unzip_path]
    let bs := (lookupF fs cfg.local_data_file).getD []
    match zip.parse bs with
    | .error e =>
      (fs1, .error (.badZipFile e),
       logs1 ++ ["ZIP file error: " ++ e, "Possible causes:",
         "1. Downloaded file is corrupted",
         "2. Wrong URL (downloaded HTML instead of ZIP)",
         "3. File is not actually a ZIP file"])
    | .ok file_list =>
      let fs2 := extractAll zip bs unzip_path file_list fs1
      let n := file_list.length
      let sampleLogs :=
        if file_list.isEmpty then []
        else
          "Sample extracted files:" :: enumLines 0 (file_list.take 5)
            ++ (if 5 < n then ["  ... and " ++ toString (n - 5) ++ " more files"] else [])
      (fs2, .ok (),
       logs1 ++ ["Extracting " ++ toString n ++ " files..."] ++ sampleLogs
         ++ ["ZIP extraction completed successfully!"])

/-- The five content-validity failure kinds named by the specification. -/
inductive VKind where
  | notFound
  | emptyFile
  | wrongContentType
  | notAnArchive
  | corruptArchive
deriving Repr, DecidableEq

/-- Recovery of the failure kind from the raised exception alone (its
Python type and message), without access to the file state: this is what a
caller can observe, so it witnesses that the five kinds stay
distinguishable. -/
def classifyVErr : PyExc → Option VKind
  | .fileNotFound _ => some .notFound
  | .valueError m =>
    if ("File is not a ZIP file. First bytes: ".data).isPrefixOf m.data then
      some .notAnArchive
    else if m = "Downloaded file is empty" then some .emptyFile
    else if m = "Downloaded HTML page instead of ZIP file. Check the URL." then
      some .wrongContentType
    else none
  | .badZipFile _ => some .corruptArchive
  | _ => none

/-- Ground truth: which of the five checks of `validate_zip_file` fails on
a given file state (none when validation succeeds). -/
def vkindOf (zip : ZipLib) (fs : FS) (p : String) : Option VKind :=
  match lookupF fs p with
  | none => some .notFound
  | some bs =>
    if bs.length = 0 then some .emptyFile
    else if (asciiBytes "<!DOCTYPE").isPrefixOf (bs.take 100)
        || (asciiBytes "<html").isPrefixOf (bs.take 100) then
      some .wrongContentType
    else if !((asciiBytes "PK").isPrefixOf (bs.take 100)) then some .notAnArchive
    else
      match zip.parse bs with
      | .ok _ => none
      | .error _ => some .corruptArchive

/-- Concrete configuration used by the witness theorems: the GitHub blob
URL scenario of the specification. -/
def cfgT : DataIngestionConfig :=
  ⟨"https://github.com/org/repo/blob/main/data.zip", "artifacts/data.zip", "artifacts/unzip"⟩

/-- Concrete ZIP library model for witnesses: `[80, 75, 3, 4]` is a
well-formed one-entry archive, `[80, 75, 7, 7]` has a `PK` signature but a
corrupt central directory. -/
def zipT : ZipLib where
  parse := fun bs =>
    if bs = [80, 75, 3, 4] then .ok ["a.txt"]
    else if bs = [80, 75, 7, 7] then .error "Bad magic number"
    else .error "not a zip"
  entryData := fun _ n => asciiBytes n

/-- Concrete ZIP library model with a well-formed seven-entry archive. -/
def zip7 : ZipLib where
  parse := fun bs =>
    if bs = [80, 75, 3, 4] then .ok ["f1", "f2", "f3", "f4", "f5", "f6", "f7"]
    else .error "nz"
  entryData := fun _ n => asciiBytes n

/-- Concrete network model: the normalized raw-content URL serves the
corrupt archive `[80, 75, 7, 7]`; anything else is a transfer failure. -/
def netBad : Net := fun u =>
  if u = "https://raw.githubusercontent.com/org/repo/main/data.zip" then
    .ok ([80, 75, 7, 7], "hdr")
  else .error (.urlError "404")

/-- Filesystem with a pre-existing corrupt destination file. -/
def fsBadZip : FS := ⟨[("artifacts/data.zip", [80, 75, 7, 7])], ["artifacts"]⟩

/-- Filesystem with a pre-existing zero-byte destination file. -/
def fsEmptyFile : FS := ⟨[("artifacts/data.zip", [])], []⟩

/-- Filesystem whose destination file is an HTML page that even contains a
`PK` signature later in its bytes. -/
def fsHtml : FS := ⟨[("artifacts/data.zip", asciiBytes "<html><body>PK")], []⟩

/-- Filesystem with a well-formed one-entry archive at the destination. -/
def fsGood : FS := ⟨[("artifacts/data.zip", [80, 75, 3, 4])], []⟩

/-- Filesystem with a well-formed seven-entry archive at the destination. -/
def fs7 : FS := ⟨[("artifacts/data.zip", [80, 75, 3, 4])], []⟩

/-- Empty filesystem (destination file absent). -/
def fsNone : FS := ⟨[], []⟩

/-- Filesystem with a one-byte destination file. -/
def fsOneByte : FS := ⟨[("artifacts/data.zip", [0])], []⟩

theorem assocLookup_removeAssoc_self (l : List (String × Bytes)) (p : String) :
    assocLookup (removeAssoc l p) p = none := by
  induction l with
  | nil => rfl
  | cons hd tl ih =>
    obtain ⟨q, v⟩ := hd
    by_cases h : q = p
    · simp [removeAssoc, h, ih]
    · simp [removeAssoc, assocLookup, h, ih]

theorem assocLookup_removeAssoc_ne (l : List (String × Bytes)) (p q : String) (h : q ≠ p) :
    assocLookup (removeAssoc l p) q = assocLookup l q := by
  have hpq : p ≠ q := fun e => h e.symm
  induction l with
  | nil => rfl
  | cons hd tl ih =>
    obtain ⟨k, v⟩ := hd
    by_cases hk : k = p
    · subst hk
      simp [removeAssoc, assocLookup, hpq, ih]
    · by_cases hq : k = q
      · subst hq
        simp [removeAssoc, assocLookup, hk]
      · simp [removeAssoc, assocLookup, hk, hq, ih]

theorem existsF_removeF_self (fs : FS) (p : String) :
    existsF (removeF fs p) p = false := by
  simp [existsF, removeF, lookupF, assocLookup_removeAssoc_self]

theorem lookupF_writeF_self (fs : FS) (p : String) (bs : Bytes) :
    lookupF (writeF fs p bs) p = some bs := by
  simp [lookupF, writeF, assocLookup]

theorem lookupF_writeF_ne (fs : FS) (p : String) (bs : Bytes) (q : String) (h : q ≠ p) :
    lookupF (writeF fs p bs) q = lookupF fs q := by
  have hpq : p ≠ q := fun e => h e.symm
  simp [lookupF, writeF, assocLookup, hpq, assocLookup_removeAssoc_ne _ _ _ h]

theorem existsF_makedirs (fs : FS) (d p : String) :
    existsF (makedirs fs d) p = existsF fs p := by
  unfold makedirs
  split <;> rfl

theorem lookupF_makedirs (fs : FS) (d p : String) :
    lookupF (makedirs fs d) p = lookupF fs p := by
  unfold makedirs
  split <;> rfl

theorem asciiPK : asciiBytes "PK" = [80, 75] := rfl

theorem asciiDoctype : asciiBytes "<!DOCTYPE" = [60, 33, 68, 79, 67, 84, 89, 80, 69] := rfl

theorem asciiHtml : asciiBytes "<html" = [60, 104, 116, 109, 108] := rfl

theorem isPrefixOf_take (pat : Bytes) :
    ∀ (l : Bytes) (n : Nat), pat.length ≤ n →
      pat.isPrefixOf (l.take n) = pat.isPrefixOf l := by
  induction pat with
  | nil => intro l n _; simp [List.isPrefixOf]
  | cons a as ih =>
    intro l n h
    match n, l with
    | 0, _ => simp at h
    | m + 1, [] => simp [List.take_nil]
    | m + 1, b :: bs =>
      have hm : as.length ≤ m := by
        simpa using Nat.le_of_succ_le_succ h
      simp [List.take_succ_cons, List.isPrefixOf, ih bs m hm]

theorem prefix_head_shape (c : Nat) (pat l : Bytes) (h : ((c :: pat).isPrefixOf l) = true) :
    ∃ t, l = c :: t := by
  match l with
  | [] => simp [List.isPrefixOf] at h
  | a :: t =>
    simp [List.isPrefixOf] at h
    exact ⟨t, by rw [h.1]⟩

theorem pk_shape (l : Bytes) (h : (asciiBytes "PK").isPrefixOf l = true) :
    ∃ t, l = 80 :: 75 :: t := by
  rw [asciiPK] at h
  obtain ⟨t, ht⟩ := prefix_head_shape 80 [75] l h
  subst ht
  simp [List.isPrefixOf] at h
  obtain ⟨u, hu⟩ := prefix_head_shape 75 [] t (by simpa [List.isPrefixOf] using h)
  exact ⟨u, by rw [hu]⟩

theorem doctype_not_pk (t : Bytes) :
    (asciiBytes "<!DOCTYPE").isPrefixOf (80 :: 75 :: t) = false := rfl

theorem html_not_pk (t : Bytes) :
    (asciiBytes "<html").isPrefixOf (80 :: 75 :: t) = false := rfl

theorem pk_prefix_cons (t : Bytes) :
    (asciiBytes "PK").isPrefixOf (80 :: 75 :: t) = true := by
  cases t <;> rfl

theorem isPrefixOf_append_self {α : Type} [BEq α] [LawfulBEq α] (l m : List α) :
    l.isPrefixOf (l ++ m) = true := by
  simp [List.isPrefixOf_iff_prefix]

theorem dataAppend (a b : String) : (a ++ b).data = a.data ++ b.data := by
  cases a
  cases b
  rfl

theorem take100_pk (t : Bytes) : (80 :: 75 :: t).take 100 = 80 :: 75 :: t.take 98 := rfl

theorem classify_notfound (s : String) :
    classifyVErr (.fileNotFound s) = some VKind.notFound := rfl

theorem classify_empty :
    classifyVErr (.valueError "Downloaded file is empty") = some VKind.emptyFile := rfl

theorem classify_html :
    classifyVErr (.valueError "Downloaded HTML page instead of ZIP file. Check the URL.")
      = some VKind.wrongContentType := rfl

theorem classify_notzip (s : String) :
    classifyVErr (.valueError ("File is not a ZIP file. First bytes: " ++ s))
      = some VKind.notAnArchive := by
  have hc : ("File is not a ZIP file. First bytes: ".data).isPrefixOf
      (("File is not a ZIP file. First bytes: " ++ s).data) = true := by
    rw [dataAppend]
    exact isPrefixOf_append_self _ _
  simp [classifyVErr, hc]

theorem classify_badzip (s : String) :
    classifyVErr (.badZipFile s) = some VKind.corruptArchive := rfl

/-- C3: every failure of `validate_zip_file` carries one of the five
distinct validity kinds, and the raised exception alone (its Python type
and message) determines which of the five checks failed — so the five-way
classification is preserved and each kind stays distinguishable by the
caller. -/
theorem validate_error_kind (zip : ZipLib) (fs : FS) (p : String) (e : PyExc)
    (h : (validate_zip_file zip fs p).1 = .error e) :
    classifyVErr e = vkindOf zip fs p ∧ (classifyVErr e).isSome = true := by
  cases hl : lookupF fs p with
  | none =>
    simp [validate_zip_file, hl] at h
    rw [← h]
    simp [vkindOf, hl, classify_notfound]
  | some bs =>
    by_cases h0 : bs.length = 0
    · simp [validate_zip_file, hl, h0] at h
      rw [← h]
      simp [vkindOf, hl, h0, classify_empty]
    · by_cases hH : ((asciiBytes "<!DOCTYPE").isPrefixOf (bs.take 100)
          || (asciiBytes "<html").isPrefixOf (bs.take 100)) = true
      · simp [validate_zip_file, hl, h0, hH] at h
        rw [← h]
        simp [vkindOf, hl, h0, hH, classify_html]
      · by_cases hPK : (asciiBytes "PK").isPrefixOf (bs.take 100) = true
        · cases hp : zip.parse bs with
          | ok names => simp [validate_zip_file, hl, h0, hH, hPK, hp] at h
          | error s =>
            simp [validate_zip_file, hl, h0, hH, hPK, hp] at h
            rw [← h]
            simp [vkindOf, hl, h0, hH, hPK, hp, classify_badzip]
        · simp [validate_zip_file, hl, h0, hH, hPK] at h
          rw [← h]
          simp [vkindOf, hl, h0, hH, hPK, classify_notzip]

/-- C5: for every URL containing the known host `github.com` together with
a `/blob/` path segment, `_fix_github_url` substitutes the raw-content
host and removes the `/blob/` segment (Python `str.replace` semantics,
i.e. all occurrences); every other URL is returned unchanged. -/
theorem fix_github_url_correct (url : String) :
    ((containsSub url "github.com" = true ∧ containsSub url "/blob/" = true) →
      (fix_github_url url).1 =
        replaceStr (replaceStr url "github.com" "raw.githubusercontent.com") "/blob/" "/")
    ∧ (¬(containsSub url "github.com" = true ∧ containsSub url "/blob/" = true) →
      (fix_github_url url).1 = url) := by
  constructor
  · rintro ⟨h1, h2⟩
    simp [fix_github_url, h1, h2]
  · intro h
    have hand : (containsSub url "github.com" && containsSub url "/blob/") = false := by
      cases hc1 : containsSub url "github.com" <;>
        cases hc2 : containsSub url "/blob/" <;> simp_all
    simp [fix_github_url, hand]

/-- C6: the five checks of `validate_zip_file` run in a fixed order with
earlier checks taking precedence: an existing zero-byte file always fails
with the empty-file error (no signature check is reached), and a file whose
bytes begin with an HTML document signature always fails with the
wrong-content-type error, whatever the later bytes contain. -/
theorem validate_check_order (zip : ZipLib) (fs : FS) (p : String) (bs : Bytes)
    (hb : lookupF fs p = some bs) :
    (bs = [] →
      (validate_zip_file zip fs p).1 = .error (.valueError "Downloaded file is empty"))
    ∧ (((asciiBytes "<!DOCTYPE").isPrefixOf bs = true
        ∨ (asciiBytes "<html").isPrefixOf bs = true) →
      (validate_zip_file zip fs p).1 =
        .error (.valueError "Downloaded HTML page instead of ZIP file. Check the URL.")) := by
  constructor
  · intro hnil
    subst hnil
    simp [validate_zip_file, hb]
  · intro hpre
    have hlen9 : (asciiBytes "<!DOCTYPE").length ≤ 100 := by decide
    have hlen5 : (asciiBytes "<html").length ≤ 100 := by decide
    have hguard : ((asciiBytes "<!DOCTYPE").isPrefixOf (bs.take 100)
        || (asciiBytes "<html").isPrefixOf (bs.take 100)) = true := by
      rcases hpre with h | h
      · rw [isPrefixOf_take _ _ _ hlen9, h]
        rfl
      · rw [isPrefixOf_take _ _ _ hlen5, h]
        simp
    have hne : bs.length ≠ 0 := by
      rcases hpre with h | h
      · rw [asciiDoctype] at h
        obtain ⟨t, rfl⟩ := prefix_head_shape 60 _ bs h
        simp
      · rw [asciiHtml] at h
        obtain ⟨t, rfl⟩ := prefix_head_shape 60 _ bs h
        simp
    simp [validate_zip_file, hb, hne, hguard]

theorem validate_ok_aux (zip : ZipLib) (fs : FS) (p : String) (bs : Bytes) (names : List String)
    (hb : lookupF fs p = some bs)
    (hpk : (asciiBytes "PK").isPrefixOf bs = true)
    (hp : zip.parse bs = .ok names) :
    validate_zip_file zip fs p =
      (.ok true, ["ZIP file is valid with " ++ toString names.length ++ " files"]) := by
  obtain ⟨t, rfl⟩ := pk_shape bs hpk
  simp [validate_zip_file, hb, hp, take100_pk, doctype_not_pk, html_not_pk, pk_prefix_cons]

/-- C7: on an existing file whose first two bytes are the `PK` signature
and whose central directory is readable, `validate_zip_file` returns
success and logs the correct count of archive entries. -/
theorem validate_success_reports_count (zip : ZipLib) (fs : FS) (p : String)
    (bs : Bytes) (names : List String)
    (hb : lookupF fs p = some bs)
    (hpk : (asciiBytes "PK").isPrefixOf bs = true)
    (hp : zip.parse bs = .ok names) :
    validate_zip_file zip fs p =
      (.ok true, ["ZIP file is valid with " ++ toString names.length ++ " files"]) :=
  validate_ok_aux zip fs p bs names hb hpk hp

/-- C10: on an existing non-empty file shorter than the 100-byte signature
read, the prefix reads succeed with the available bytes, and when the
content is neither an HTML prefix nor a `PK` prefix, validation fails with
the not-an-archive error whose message holds the hex dump of at most the
first 20 bytes — no out-of-range read occurs. -/
theorem validate_short_total (zip : ZipLib) (fs : FS) (p : String) (bs : Bytes)
    (hb : lookupF fs p = some bs)
    (hne : bs ≠ [])
    (hshort : bs.length < 100)
    (hd : (asciiBytes "<!DOCTYPE").isPrefixOf bs = false)
    (hh : (asciiBytes "<html").isPrefixOf bs = false)
    (hpk : (asciiBytes "PK").isPrefixOf bs = false) :
    (validate_zip_file zip fs p).1 =
      .error (.valueError ("File is not a ZIP file. First bytes: " ++ hexOfBytes (bs.take 20)))
    ∧ bs.take 100 = bs
    ∧ (bs.take 20).length ≤ 20 := by
  have htake : bs.take 100 = bs := List.take_of_length_le (Nat.le_of_lt hshort)
  have hlen : bs.length ≠ 0 := fun h => hne (List.length_eq_zero.mp h)
  refine ⟨?_, htake, by simp [List.length_take]⟩
  simp [validate_zip_file, hb, hlen, htake, hd, hh, hpk]

theorem download_file_absent (zip : ZipLib) (net : Net) (cfg : DataIngestionConfig)
    (fs : FS) (m : Nat) (h : existsF fs cfg.local_data_file = false) :
    download_file zip net cfg fs (m + 1) = freshDownload zip net cfg fs := by
  simp [download_file, h]

theorem freshDownload_reqs (zip : ZipLib) (net : Net) (cfg : DataIngestionConfig) (fs : FS) :
    (freshDownload zip net cfg fs).reqs = [(fix_github_url cfg.source_URL).1] := rfl

theorem freshDownload_error (zip : ZipLib) (net : Net) (cfg : DataIngestionConfig)
    (fs : FS) (e : PyExc)
    (hab : existsF fs cfg.local_data_file = false)
    (h : (freshDownload zip net cfg fs).result = .error e) :
    existsF (freshDownload zip net cfg fs).fs cfg.local_data_file = false
    ∧ ((∃ u, net u = .error e)
       ∨ ∃ fs2, (validate_zip_file zip fs2 cfg.local_data_file).1 = .error e) := by
  have hab1 : existsF (makedirs fs (dirname cfg.local_data_file)) cfg.local_data_file = false := by
    rw [existsF_makedirs]
    exact hab
  simp only [freshDownload, freshBody] at h ⊢
  cases hn : net (fix_github_url cfg.source_URL).1 with
  | error e2 =>
    simp only [hn, if_neg (by simp [hab1] : ¬ existsF (makedirs fs
      (dirname cfg.local_data_file)) cfg.local_data_file = true)] at h ⊢
    simp at h
    subst h
    exact ⟨hab1, Or.inl ⟨(fix_github_url cfg.source_URL).1, hn⟩⟩
  | ok pr =>
    obtain ⟨body, headers⟩ := pr
    simp only [hn] at h ⊢
    rcases hv : validate_zip_file zip
        (writeF (makedirs fs (dirname cfg.local_data_file)) cfg.local_data_file body)
        cfg.local_data_file with ⟨res, vlogs⟩
    simp only [hv] at h ⊢
    cases res with
    | ok b => simp at h
    | error e3 =>
      simp at h ⊢
      refine ⟨existsF_removeF_self _ _, Or.inr
        ⟨writeF (makedirs fs (dirname cfg.local_data_file)) cfg.local_data_file body, ?_⟩⟩
      rw [hv, h]

/-- C1: when the destination file already exists and its validation fails
with a content-validity error (`ValueError` or `BadZipFile`, not the
not-found error), `download_file` deletes it and makes exactly one
re-download request; the recursion is insensitive to any fuel of at least
two (no infinite loop), and when validation of the re-downloaded file fails
again, that second failure propagates to the caller with the destination
file deleted. -/
theorem download_file_retry_once (zip : ZipLib) (net : Net) (cfg : DataIngestionConfig)
    (fs : FS) (n : Nat) (e : PyExc)
    (h1 : existsF fs cfg.local_data_file = true)
    (h2 : (validate_zip_file zip fs cfg.local_data_file).1 = .error e)
    (h3 : isValueOrBadZip e = true) :
    download_file zip net cfg fs (n + 2) = download_file zip net cfg fs 2
    ∧ (download_file zip net cfg fs 2).reqs = [(fix_github_url cfg.source_URL).1]
    ∧ ∀ body headers e2,
        net (fix_github_url cfg.source_URL).1 = .ok (body, headers) →
        (validate_zip_file zip
          (writeF (makedirs (removeF fs cfg.local_data_file) (dirname cfg.local_data_file))
            cfg.local_data_file body)
          cfg.local_data_file).1 = .error e2 →
        (download_file zip net cfg fs 2).result = .error e2
        ∧ existsF (download_file zip net cfg fs 2).fs cfg.local_data_file = false := by
  rcases hv : validate_zip_file zip fs cfg.local_data_file with ⟨res, vlogs⟩
  rw [hv] at h2
  simp at h2
  subst h2
  have hrm : existsF (removeF fs cfg.local_data_file) cfg.local_data_file = false :=
    existsF_removeF_self fs cfg.local_data_file
  have hstep : ∀ m : Nat, download_file zip net cfg fs (m + 2) = download_file zip net cfg fs 2 := by
    intro m
    show download_file zip net cfg fs (m + 1 + 1) = download_file zip net cfg fs (0 + 1 + 1)
    simp [download_file, h1, hv, h3, hrm]
  refine ⟨hstep n, ?_, ?_⟩
  · show (download_file zip net cfg fs (0 + 1 + 1)).reqs = [(fix_github_url cfg.source_URL).1]
    simp [download_file, h1, hv, h3, hrm]
    cases hr : (freshDownload zip net cfg (removeF fs cfg.local_data_file)).result with
    | error re =>
      simp only [hr]
      split <;> simp [freshDownload_reqs]
    | ok re => simp [hr, freshDownload_reqs]
  · intro body headers e2 h4 h5
    show (download_file zip net cfg fs (0 + 1 + 1)).result = .error e2
      ∧ existsF (download_file zip net cfg fs (0 + 1 + 1)).fs cfg.local_data_file = false
    simp [download_file, h1, hv, h3, hrm]
    rcases hv2 : validate_zip_file zip
        (writeF (makedirs (removeF fs cfg.local_data_file) (dirname cfg.local_data_file))
          cfg.local_data_file body)
        cfg.local_data_file with ⟨res2, vlogs2⟩
    rw [hv2] at h5
    simp at h5
    subst h5
    have hres : (freshDownload zip net cfg (removeF fs cfg.local_data_file)).result
        = .error e2 := by
      simp only [freshDownload, freshBody, h4, hv2]
    have hfs2 : (freshDownload zip net cfg (removeF fs cfg.local_data_file)).fs
        = removeF (writeF (makedirs (removeF fs cfg.local_data_file)
            (dirname cfg.local_data_file)) cfg.local_data_file body) cfg.local_data_file := by
      simp only [freshDownload, freshBody, h4, hv2]
    simp [hres, hfs2, existsF_removeF_self]

/-- C2: every failure propagating out of `download_file` leaves the
destination file deleted, and the exception that reaches the caller is the
original failure value produced by the network layer or by validation,
unchanged (no generic wrapper). -/
theorem download_file_error_cleanup (zip : ZipLib) (net : Net) (cfg : DataIngestionConfig)
    (fs : FS) (n : Nat) (e : PyExc)
    (h : (download_file zip net cfg fs (n + 2)).result = .error e) :
    existsF (download_file zip net cfg fs (n + 2)).fs cfg.local_data_file = false
    ∧ ((∃ u, net u = .error e)
       ∨ ∃ fs2, (validate_zip_file zip fs2 cfg.local_data_file).1 = .error e) := by
  by_cases hex : existsF fs cfg.local_data_file = false
  · rw [download_file_absent zip net cfg fs (n + 1) hex] at h ⊢
    exact freshDownload_error zip net cfg fs e hex h
  · have hex1 : existsF fs cfg.local_data_file = true := by
      revert hex
      cases existsF fs cfg.local_data_file <;> simp
    have hrm : existsF (removeF fs cfg.local_data_file) cfg.local_data_file = false :=
      existsF_removeF_self fs cfg.local_data_file
    rcases hv : validate_zip_file zip fs cfg.local_data_file with ⟨res, vlogs⟩
    cases res with
    | ok b =>
      simp [download_file, hex1, hv] at h
    | error e0 =>
      by_cases hc : isValueOrBadZip e0 = true
      · simp [download_file, hex1, hv, hc, hrm] at h ⊢
        cases hr : (freshDownload zip net cfg (removeF fs cfg.local_data_file)).result with
        | ok re =>
          simp only [hr] at h
          simp at h
        | error re =>
          obtain ⟨hfs, horig⟩ :=
            freshDownload_error zip net cfg (removeF fs cfg.local_data_file) re hrm hr
          simp only [hr] at h ⊢
          rw [if_neg (by simp [hfs])] at h ⊢
          simp at h
          subst h
          exact ⟨hfs, horig⟩
      · simp [download_file, hex1, hv, hc] at h ⊢
        subst h
        exact ⟨existsF_removeF_self _ _, Or.inr ⟨fs, by rw [hv]⟩⟩

/-- C4: when the destination file is absent, a validation failure right
after the fresh download propagates to the caller with no retry — exactly
one download request is made, the original error surfaces, and the
destination file is cleaned up. -/
theorem download_file_fresh_no_retry (zip : ZipLib) (net : Net) (cfg : DataIngestionConfig)
    (fs : FS) (m : Nat) (body : Bytes) (headers : String) (e : PyExc)
    (h1 : existsF fs cfg.local_data_file = false)
    (h2 : net (fix_github_url cfg.source_URL).1 = .ok (body, headers))
    (h3 : (validate_zip_file zip
        (writeF (makedirs fs (dirname cfg.local_data_file)) cfg.local_data_file body)
        cfg.local_data_file).1 = .error e) :
    (download_file zip net cfg fs (m + 1)).result = .error e
    ∧ (download_file zip net cfg fs (m + 1)).reqs = [(fix_github_url cfg.source_URL).1]
    ∧ existsF (download_file zip net cfg fs (m + 1)).fs cfg.local_data_file = false := by
  rw [download_file_absent zip net cfg fs m h1]
  rcases hv : validate_zip_file zip
      (writeF (makedirs fs (dirname cfg.local_data_file)) cfg.local_data_file body)
      cfg.local_data_file with ⟨res, vlogs⟩
  rw [hv] at h3
  simp at h3
  subst h3
  refine ⟨?_, freshDownload_reqs zip net cfg fs, ?_⟩
  · simp only [freshDownload, freshBody, h2, hv]
  · simp only [freshDownload, freshBody, h2, hv]
    exact existsF_removeF_self _ _

theorem strEqOfData (a b : String) (h : a.data = b.data) : a = b := by
  cases a
  cases b
  exact congrArg String.mk h

theorem strAppendCancelLeft (a b c : String) (h : a ++ b = a ++ c) : b = c := by
  have hd := congrArg String.data h
  rw [dataAppend, dataAppend] at hd
  exact strEqOfData _ _ (List.append_cancel_left hd)

theorem joinInj (dir m n : String) (h : dir ++ "/" ++ m = dir ++ "/" ++ n) : m = n :=
  strAppendCancelLeft (dir ++ "/") m n h

theorem extractAll_frame (zip : ZipLib) (bs : Bytes) (dir : String) (names : List String)
    (fs : FS) (q : String) (h : ∀ k ∈ names, dir ++ "/" ++ k ≠ q) :
    lookupF (extractAll zip bs dir names fs) q = lookupF fs q := by
  induction names generalizing fs with
  | nil => rfl
  | cons m rest ih =>
    simp only [extractAll]
    rw [ih _ (fun k hk => h k (List.mem_cons_of_mem _ hk))]
    exact lookupF_writeF_ne _ _ _ _ (fun e => h m (List.mem_cons_self _ _) e.symm)

theorem extractAll_mem (zip : ZipLib) (bs : Bytes) (dir : String) (names : List String)
    (fs : FS) (n : String) (hn : n ∈ names) :
    lookupF (extractAll zip bs dir names fs) (dir ++ "/" ++ n)
      = some (zip.entryData bs n) := by
  induction names generalizing fs with
  | nil => cases hn
  | cons m rest ih =>
    by_cases hmem : n ∈ rest
    · simp only [extractAll]
      exact ih _ hmem
    · have hnm : n = m := by
        rcases List.mem_cons.mp hn with h | h
        · exact h
        · exact absurd h hmem
      subst hnm
      simp only [extractAll]
      rw [extractAll_frame zip bs dir rest _ _ ?hk]
      · exact lookupF_writeF_self _ _ _
      case hk =>
        intro k hk heq
        have hkn := joinInj dir k n heq
        subst hkn
        exact hmem hk

theorem extractAll_dirs (zip : ZipLib) (bs : Bytes) (dir : String) (names : List String)
    (fs : FS) : (extractAll zip bs dir names fs).dirs = fs.dirs := by
  induction names generalizing fs with
  | nil => rfl
  | cons m rest ih =>
    simp only [extractAll]
    rw [ih]
    rfl

theorem mem_dirs_makedirs (fs : FS) (d : String) : d ∈ (makedirs fs d).dirs := by
  unfold makedirs
  split
  · assumption
  · exact List.mem_cons_self _ _

theorem enumLines_length (k : Nat) (l : List String) :
    (enumLines k l).length = l.length := by
  induction l generalizing k with
  | nil => rfl
  | cons a t ih => simp [enumLines, ih]

theorem enumLines_get (k : Nat) (l : List String) (i : Nat) (nm : String)
    (h : l[i]? = some nm) :
    (enumLines k l)[i]? = some ("  " ++ toString (k + i + 1) ++ ". " ++ nm) := by
  induction l generalizing k i with
  | nil => simp at h
  | cons a t ih =>
    cases i with
    | zero =>
      simp at h
      subst h
      simp [enumLines]
    | succ j =>
      rw [List.getElem?_cons_succ] at h
      have harith : k + 1 + j + 1 = k + (j + 1) + 1 := by omega
      have h2 := ih (k + 1) j h
      rw [harith] at h2
      simpa [enumLines] using h2

/-- C9: `extract_zip_file` re-validates the archive before creating the
target directory, so on any validation failure it raises that failure with
the filesystem unchanged: the target directory is not created and no entry
is written to disk. -/
theorem extract_invalid_frame (zip : ZipLib) (cfg : DataIngestionConfig) (fs : FS) (e : PyExc)
    (h : (validate_zip_file zip fs cfg.local_data_file).1 = .error e) :
    (extract_zip_file zip cfg fs).1 = fs
    ∧ (extract_zip_file zip cfg fs).2.1 = .error e
    ∧ (cfg.unzip_dir ∉ fs.dirs → cfg.unzip_dir ∉ (extract_zip_file zip cfg fs).1.dirs)
    ∧ ∀ q, lookupF (extract_zip_file zip cfg fs).1 q = lookupF fs q := by
  rcases hv : validate_zip_file zip fs cfg.local_data_file with ⟨res, vlogs⟩
  rw [hv] at h
  simp at h
  subst h
  have h1 : (extract_zip_file zip cfg fs).1 = fs := by
    cases hbz : isBadZip e <;> simp [extract_zip_file, hv, hbz]
  have h2 : (extract_zip_file zip cfg fs).2.1 = .error e := by
    cases hbz : isBadZip e <;> simp [extract_zip_file, hv, hbz]
  exact ⟨h1, h2, fun hd => by rw [h1]; exact hd, fun q => by rw [h1]⟩

/-- C8: on a valid archive, `extract_zip_file` succeeds, writes every entry
under the target directory preserving its archive-internal relative path,
and its sample logging is exact: min(n, 5) enumerated (1-indexed) sample
names, plus a remainder count of n - 5 exactly when n > 5. -/
theorem extract_zip_success (zip : ZipLib) (cfg : DataIngestionConfig) (fs : FS)
    (bs : Bytes) (names : List String)
    (hb : lookupF fs cfg.local_data_file = some bs)
    (hpk : (asciiBytes "PK").isPrefixOf bs = true)
    (hp : zip.parse bs = .ok names) :
    (extract_zip_file zip cfg fs).2.1 = .ok ()
    ∧ (∀ name, name ∈ names →
        lookupF (extract_zip_file zip cfg fs).1 (cfg.unzip_dir ++ "/" ++ name)
          = some (zip.entryData bs name))
    ∧ cfg.unzip_dir ∈ (extract_zip_file zip cfg fs).1.dirs
    ∧ (extract_zip_file zip cfg fs).2.2 =
        ("ZIP file is valid with " ++ toString names.length ++ " files") ::
        ("Extracting ZIP file to: " ++ cfg.unzip_dir) ::
        ("Extracting " ++ toString names.length ++ " files...") ::
        ((if names.isEmpty then []
          else "Sample extracted files:" :: enumLines 0 (names.take 5)
            ++ (if 5 < names.length then
                  ["  ... and " ++ toString (names.length - 5) ++ " more files"]
                else []))
         ++ ["ZIP extraction completed successfully!"])
    ∧ (enumLines 0 (names.take 5)).length = min names.length 5
    ∧ ∀ i nm, (names.take 5)[i]? = some nm →
        (enumLines 0 (names.take 5))[i]? = some ("  " ++ toString (i + 1) ++ ". " ++ nm) := by
  have hval := validate_ok_aux zip fs cfg.local_data_file bs names hb hpk hp
  have hext : extract_zip_file zip cfg fs =
      (extractAll zip bs cfg.unzip_dir names (makedirs fs cfg.unzip_dir), .ok (),
       ("ZIP file is valid with " ++ toString names.length ++ " files") ::
       ("Extracting ZIP file to: " ++ cfg.unzip_dir) ::
       ("Extracting " ++ toString names.length ++ " files...") ::
       ((if names.isEmpty then []
         else "Sample extracted files:" :: enumLines 0 (names.take 5)
           ++ (if 5 < names.length then
                 ["  ... and " ++ toString (names.length - 5) ++ " more files"]
               else []))
        ++ ["ZIP extraction completed successfully!"])) := by
    simp [extract_zip_file, hval, hb, hp]
  refine ⟨by rw [hext], ?_, ?_, by rw [hext], ?_, ?_⟩
  · intro name hname
    rw [hext]
    exact extractAll_mem zip bs cfg.unzip_dir names _ name hname
  · rw [hext]
    show cfg.unzip_dir ∈ (extractAll zip bs cfg.unzip_dir names (makedirs fs cfg.unzip_dir)).dirs
    rw [extractAll_dirs]
    exact mem_dirs_makedirs fs cfg.unzip_dir
  · rw [enumLines_length, List.length_take, Nat.min_comm]
  · intro i nm h
    have h2 := enumLines_get 0 (names.take 5) i nm h
    simpa using h2

theorem download_file_retry_once_witness :
    existsF fsBadZip cfgT.local_data_file = true
    ∧ (validate_zip_file zipT fsBadZip cfgT.local_data_file).1
        = .error (.badZipFile "Corrupted ZIP file: Bad magic number")
    ∧ isValueOrBadZip (.badZipFile "Corrupted ZIP file: Bad magic number") = true
    ∧ (download_file zipT netBad cfgT fsBadZip 2).reqs
        = ["https://raw.githubusercontent.com/org/repo/main/data.zip"]
    ∧ (download_file zipT netBad cfgT fsBadZip 2).result
        = .error (.badZipFile "Corrupted ZIP file: Bad magic number") := by
  have h := download_file_retry_once zipT netBad cfgT fsBadZip 0
    (.badZipFile "Corrupted ZIP file: Bad magic number") rfl rfl rfl
  refine ⟨rfl, rfl, rfl, ?_, ?_⟩
  · rw [h.2.1]
    rfl
  · exact (h.2.2 [80, 75, 7, 7] "hdr"
      (.badZipFile "Corrupted ZIP file: Bad magic number") rfl rfl).1

theorem download_file_error_cleanup_witness :
    (download_file zipT netBad cfgT fsBadZip (0 + 2)).result
        = .error (.badZipFile "Corrupted ZIP file: Bad magic number")
    ∧ (existsF (download_file zipT netBad cfgT fsBadZip (0 + 2)).fs cfgT.local_data_file = false
       ∧ ((∃ u, netBad u = .error (.badZipFile "Corrupted ZIP file: Bad magic number"))
          ∨ ∃ fs2, (validate_zip_file zipT fs2 cfgT.local_data_file).1
              = .error (.badZipFile "Corrupted ZIP file: Bad magic number"))) :=
  ⟨rfl, download_file_error_cleanup zipT netBad cfgT fsBadZip 0 _ rfl⟩

theorem validate_error_kind_witness :
    (validate_zip_file zipT fsEmptyFile "artifacts/data.zip").1
        = .error (.valueError "Downloaded file is empty")
    ∧ (classifyVErr (.valueError "Downloaded file is empty")
        = vkindOf zipT fsEmptyFile "artifacts/data.zip"
       ∧ (classifyVErr (.valueError "Downloaded file is empty")).isSome = true) :=
  ⟨rfl, validate_error_kind zipT fsEmptyFile "artifacts/data.zip" _ rfl⟩

theorem download_file_fresh_no_retry_witness :
    existsF fsNone cfgT.local_data_file = false
    ∧ netBad (fix_github_url cfgT.source_URL).1 = .ok ([80, 75, 7, 7], "hdr")
    ∧ (validate_zip_file zipT
        (writeF (makedirs fsNone (dirname cfgT.local_data_file)) cfgT.local_data_file
          [80, 75, 7, 7]) cfgT.local_data_file).1
        = .error (.badZipFile "Corrupted ZIP file: Bad magic number")
    ∧ ((download_file zipT netBad cfgT fsNone (0 + 1)).result
        = .error (.badZipFile "Corrupted ZIP file: Bad magic number")
       ∧ (download_file zipT netBad cfgT fsNone (0 + 1)).reqs
          = [(fix_github_url cfgT.source_URL).1]
       ∧ existsF (download_file zipT netBad cfgT fsNone (0 + 1)).fs
          cfgT.local_data_file = false) :=
  ⟨rfl, rfl, rfl,
   download_file_fresh_no_retry zipT netBad cfgT fsNone 0 [80, 75, 7, 7] "hdr" _ rfl rfl rfl⟩

theorem fix_github_url_correct_witness :
    containsSub "https://github.com/org/repo/blob/main/data.zip" "github.com" = true
    ∧ containsSub "https://github.com/org/repo/blob/main/data.zip" "/blob/" = true
    ∧ (fix_github_url "https://github.com/org/repo/blob/main/data.zip").1
        = "https://raw.githubusercontent.com/org/repo/main/data.zip" := by
  refine ⟨rfl, rfl, ?_⟩
  have h := (fix_github_url_correct "https://github.com/org/repo/blob/main/data.zip").1 ⟨rfl, rfl⟩
  rw [h]
  rfl

theorem validate_check_order_witness :
    lookupF fsEmptyFile "artifacts/data.zip" = some []
    ∧ (validate_zip_file zipT fsEmptyFile "artifacts/data.zip").1
        = .error (.valueError "Downloaded file is empty")
    ∧ lookupF fsHtml "artifacts/data.zip" = some (asciiBytes "<html><body>PK")
    ∧ (asciiBytes "<html").isPrefixOf (asciiBytes "<html><body>PK") = true
    ∧ (validate_zip_file zipT fsHtml "artifacts/data.zip").1
        = .error (.valueError "Downloaded HTML page instead of ZIP file. Check the URL.") := by
  refine ⟨rfl, ?_, rfl, rfl, ?_⟩
  · exact (validate_check_order zipT fsEmptyFile "artifacts/data.zip" [] rfl).1 rfl
  · exact (validate_check_order zipT fsHtml "artifacts/data.zip"
      (asciiBytes "<html><body>PK") rfl).2 (Or.inr rfl)

theorem validate_success_reports_count_witness :
    lookupF fsGood "artifacts/data.zip" = some [80, 75, 3, 4]
    ∧ (asciiBytes "PK").isPrefixOf [80, 75, 3, 4] = true
    ∧ zipT.parse [80, 75, 3, 4] = .ok ["a.txt"]
    ∧ validate_zip_file zipT fsGood "artifacts/data.zip"
        = (.ok true, ["ZIP file is valid with 1 files"]) := by
  refine ⟨rfl, rfl, rfl, ?_⟩
  have h := validate_success_reports_count zipT fsGood "artifacts/data.zip"
    [80, 75, 3, 4] ["a.txt"] rfl rfl rfl
  exact h.trans rfl

theorem extract_zip_success_witness :
    lookupF fs7 cfgT.local_data_file = some [80, 75, 3, 4]
    ∧ (asciiBytes "PK").isPrefixOf [80, 75, 3, 4] = true
    ∧ zip7.parse [80, 75, 3, 4] = .ok ["f1", "f2", "f3", "f4", "f5", "f6", "f7"]
    ∧ (extract_zip_file zip7 cfgT fs7).2.1 = .ok ()
    ∧ (extract_zip_file zip7 cfgT fs7).2.2 =
        ["ZIP file is valid with 7 files", "Extracting ZIP file to: artifacts/unzip",
         "Extracting 7 files...", "Sample extracted files:", "  1. f1", "  2. f2", "  3. f3",
         "  4. f4", "  5. f5", "  ... and 2 more files", "ZIP extraction completed successfully!"]
    ∧ lookupF (extract_zip_file zip7 cfgT fs7).1 "artifacts/unzip/f7" = some (asciiBytes "f7")
    ∧ "artifacts/unzip" ∈ (extract_zip_file zip7 cfgT fs7).1.dirs := by
  have h := extract_zip_success zip7 cfgT fs7 [80, 75, 3, 4]
    ["f1", "f2", "f3", "f4", "f5", "f6", "f7"] rfl rfl rfl
  refine ⟨rfl, rfl, rfl, h.1, by rfl, ?_, ?_⟩
  · exact h.2.1 "f7" (by simp)
  · exact h.2.2.1

theorem extract_invalid_frame_witness :
    (validate_zip_file zipT fsEmptyFile cfgT.local_data_file).1
        = .error (.valueError "Downloaded file is empty")
    ∧ ((extract_zip_file zipT cfgT fsEmptyFile).1 = fsEmptyFile
       ∧ (extract_zip_file zipT cfgT fsEmptyFile).2.1
          = .error (.valueError "Downloaded file is empty")
       ∧ ("artifacts/unzip" ∉ fsEmptyFile.dirs →
          "artifacts/unzip" ∉ (extract_zip_file zipT cfgT fsEmptyFile).1.dirs)
       ∧ ∀ q, lookupF (extract_zip_file zipT cfgT fsEmptyFile).1 q = lookupF fsEmptyFile q) :=
  ⟨rfl, extract_invalid_frame zipT cfgT fsEmptyFile _ rfl⟩

theorem validate_short_total_witness :
    lookupF fsOneByte "artifacts/data.zip" = some [0]
    ∧ ([0] : Bytes) ≠ []
    ∧ ([0] : Bytes).length < 100
    ∧ (asciiBytes "<!DOCTYPE").isPrefixOf [0] = false
    ∧ (asciiBytes "<html").isPrefixOf [0] = false
    ∧ (asciiBytes "PK").isPrefixOf [0] = false
    ∧ (validate_zip_file zipT fsOneByte "artifacts/data.zip").1
        = .error (.valueError "File is not a ZIP file. First bytes: 00") := by
  refine ⟨rfl, by decide, by decide, rfl, rfl, rfl, ?_⟩
  have h := (validate_short_total zipT fsOneByte "artifacts/data.zip" [0]
    rfl (by decide) (by decide) rfl rfl rfl).1
  exact h.trans rfl

end DataIngestion
